import Mathlib

/-!
Verification of the tenant lifecycle synchronization subsystem of a
multi-tenant CRM.  The definitions below are shallow embeddings of the
source:

* `WebhookSig` — the CRM-side `WebhookSignatureService`
  (`packages/twenty-server/.../services/webhook-signature.service.ts`):
  HMAC-SHA256 signing and verification of `t=<ts>,v1=<hex>` headers.
* `EdgeFn` — the control-plane `crm-webhook` Supabase edge function
  (`supabase/functions/crm-webhook/index.ts`): its (stubbed) signature
  check and its updates to the `crm.tenants` table.
* `CrmAdmin` — `TenantAdminService` (disable/enable/notes over the
  `core.workspace` table) and `TenantWebhookController.handleWebhook`.
* `Queue` — the `core.webhook_queue` table together with the
  `core.send_webhook` and `core.retry_failed_webhooks` PL/pgSQL
  functions from migration `1765400000000-addTenantAdminFields`.

Strings are modelled as `List Char`; machine integers as `Nat`/`Int`
with explicit masking; JavaScript exceptions and PL/pgSQL `RAISE` as
`Except`.
-/

/-- Strings of the embedded programs are lists of characters. -/
abbrev Str := List Char

namespace StrUtil

/-- JavaScript `String.prototype.split` with a single-character
separator: `"a,b".split(',')` is `["a","b"]`, `"".split(',')` is
`[""]`, and separators at the ends produce empty fields. -/
def splitChar (sep : Char) : Str → List Str
  | [] => [[]]
  | c :: rest =>
    match splitChar sep rest with
    | [] => [[]]
    | h :: t => if c = sep then [] :: h :: t else (c :: h) :: t

theorem splitChar_ne_nil (sep : Char) (s : Str) : splitChar sep s ≠ [] := by
  cases s with
  | nil => simp [splitChar]
  | cons c rest =>
    simp only [splitChar]
    cases h : splitChar sep rest with
    | nil => simp
    | cons a t =>
      by_cases hc : c = sep <;> simp [hc]

theorem splitChar_of_not_mem {sep : Char} {s : Str} (h : sep ∉ s) :
    splitChar sep s = [s] := by
  induction s with
  | nil => rfl
  | cons c rest ih =>
    have hcs : c ≠ sep := fun hc => h (hc ▸ List.mem_cons_self c rest)
    have hrest : sep ∉ rest := fun hr => h (List.mem_cons_of_mem _ hr)
    simp [splitChar, ih hrest, hcs]

theorem splitChar_append_cons {sep : Char} {a : Str} (b : Str)
    (h : sep ∉ a) : splitChar sep (a ++ sep :: b) = a :: splitChar sep b := by
  induction a with
  | nil =>
    simp only [List.nil_append, splitChar]
    cases hb : splitChar sep b with
    | nil => exact absurd hb (splitChar_ne_nil sep b)
    | cons x t => simp
  | cons c rest ih =>
    have hcs : c ≠ sep := fun hc => h (hc ▸ List.mem_cons_self c rest)
    have hrest : sep ∉ rest := fun hr => h (List.mem_cons_of_mem _ hr)
    simp only [List.cons_append, splitChar, List.append_eq, ih hrest, hcs,
      if_false]

/-- Decimal digit characters. -/
def decChars : Str := ['0', '1', '2', '3', '4', '5', '6', '7', '8', '9']

/-- Is `c` an ASCII decimal digit? -/
def isDigitCh (c : Char) : Bool := decide (48 ≤ c.toNat ∧ c.toNat ≤ 57)

/-- Numeric value of a digit character. -/
def digitVal (c : Char) : Nat := c.toNat - 48

/-- The digit character for `d % 10` (JavaScript number printing). -/
def digitCh (d : Nat) : Char := decChars.getD (d % 10) '0'

theorem isDigitCh_digitCh (d : Nat) : isDigitCh (digitCh d) = true := by
  have h : d % 10 < 10 := Nat.mod_lt _ (by decide)
  have : ∀ k, k < 10 → isDigitCh (decChars.getD k '0') = true := by decide
  exact this _ h

theorem digitVal_digitCh (d : Nat) : digitVal (digitCh d) = d % 10 := by
  have h : d % 10 < 10 := Nat.mod_lt _ (by decide)
  have : ∀ k, k < 10 → digitVal (decChars.getD k '0') = k := by decide
  rw [digitCh]
  exact this _ h

/-- Decimal printing of a natural number, with fuel (fuel `n + 1`
always suffices for printing `n`). -/
def natDigitsAux : Nat → Nat → Str → Str
  | 0, _, acc => acc
  | fuel + 1, n, acc =>
    let d := digitCh (n % 10)
    if n < 10 then d :: acc else natDigitsAux fuel (n / 10) (d :: acc)

/-- Decimal printing of a natural number, as JavaScript prints
integral numbers into template strings. -/
def natRepr (n : Nat) : Str := natDigitsAux (n + 1) n []

/-- Value of a digit string read left to right, starting from `a`. -/
def digitsValFrom (a : Nat) (s : Str) : Nat :=
  s.foldl (fun x c => x * 10 + digitVal c) a

/-- Value of a digit string. -/
def digitsVal (s : Str) : Nat := digitsValFrom 0 s

theorem natDigitsAux_spec (fuel : Nat) :
    ∀ n acc, n ≤ fuel →
      digitsValFrom 0 (natDigitsAux (fuel + 1) n acc) = digitsValFrom n acc := by
  induction fuel with
  | zero =>
    intro n acc hn
    have hn0 : n = 0 := Nat.le_zero.mp hn
    subst hn0
    simp [natDigitsAux, digitsValFrom, digitVal_digitCh]
  | succ f ih =>
    intro n acc hn
    by_cases h10 : n < 10
    · simp only [natDigitsAux, h10, if_true]
      simp [digitsValFrom, digitVal_digitCh, Nat.mod_eq_of_lt h10]
    · have hrec : natDigitsAux (f + 1 + 1) n acc
          = natDigitsAux (f + 1) (n / 10) (digitCh (n % 10) :: acc) := by
        simp [natDigitsAux, h10]
      have hdiv : n / 10 ≤ f := by
        have hlt : n / 10 < n := Nat.div_lt_self (by omega) (by decide)
        omega
      rw [hrec, ih (n / 10) _ hdiv]
      simp only [digitsValFrom, List.foldl_cons, digitVal_digitCh]
      congr 1
      omega

theorem natDigitsAux_struct (fuel : Nat) :
    ∀ n acc, n ≤ fuel →
      ∃ ds, natDigitsAux (fuel + 1) n acc = ds ++ acc ∧ ds ≠ [] ∧
        ∀ c ∈ ds, isDigitCh c = true := by
  induction fuel with
  | zero =>
    intro n acc hn
    have hn0 : n = 0 := Nat.le_zero.mp hn
    subst hn0
    exact ⟨[digitCh 0], by simp [natDigitsAux], by simp,
      by simp [isDigitCh_digitCh]⟩
  | succ f ih =>
    intro n acc hn
    by_cases h10 : n < 10
    · exact ⟨[digitCh (n % 10)], by simp [natDigitsAux, h10], by simp,
        by simp [isDigitCh_digitCh]⟩
    · have hrec : natDigitsAux (f + 1 + 1) n acc
          = natDigitsAux (f + 1) (n / 10) (digitCh (n % 10) :: acc) := by
        simp [natDigitsAux, h10]
      have hdiv : n / 10 ≤ f := by
        have hlt : n / 10 < n := Nat.div_lt_self (by omega) (by decide)
        omega
      obtain ⟨ds, hds, hne, hdig⟩ := ih (n / 10) (digitCh (n % 10) :: acc) hdiv
      refine ⟨ds ++ [digitCh (n % 10)], ?_, by simp, ?_⟩
      · rw [hrec, hds]; simp
      · intro c hc
        rcases List.mem_append.mp hc with h | h
        · exact hdig c h
        · simp only [List.mem_singleton] at h
          exact h ▸ isDigitCh_digitCh _

theorem natRepr_digits (n : Nat) :
    natRepr n ≠ [] ∧ (∀ c ∈ natRepr n, isDigitCh c = true) ∧
      digitsVal (natRepr n) = n := by
  obtain ⟨ds, hds, hne, hdig⟩ := natDigitsAux_struct n n [] (Nat.le_refl n)
  have hval := natDigitsAux_spec n n [] (Nat.le_refl n)
  refine ⟨?_, ?_, ?_⟩
  · rw [natRepr, hds]; simpa using hne
  · intro c hc; rw [natRepr, hds] at hc; simpa using hdig c (by simpa using hc)
  · rw [digitsVal, natRepr, hval]; rfl

theorem digit_not_comma {c : Char} (h : isDigitCh c = true) : c ≠ ',' := by
  intro hc; subst hc; simp [isDigitCh] at h

theorem digit_not_eq_sign {c : Char} (h : isDigitCh c = true) : c ≠ '=' := by
  intro hc; subst hc; simp [isDigitCh] at h

/-- JavaScript whitespace skipped by `parseInt` (space, tab, LF, CR). -/
def isWsCh (c : Char) : Bool :=
  decide (c.toNat = 32 ∨ c.toNat = 9 ∨ c.toNat = 10 ∨ c.toNat = 13)

/-- Longest digit prefix. -/
def takeDigits (s : Str) : Str := s.takeWhile isDigitCh

/-- JavaScript `parseInt(s, 10)`: skip whitespace, optional sign,
maximal digit prefix; `NaN` (here `none`) if no digit follows. -/
def parseIntJS (s : Str) : Option Int :=
  match s.dropWhile isWsCh with
  | [] => none
  | c :: rest =>
    if c = '-' then
      let ds := takeDigits rest
      if ds.isEmpty then none else some (-(digitsVal ds : Int))
    else if c = '+' then
      let ds := takeDigits rest
      if ds.isEmpty then none else some ((digitsVal ds : Int))
    else
      let ds := takeDigits (c :: rest)
      if ds.isEmpty then none else some ((digitsVal ds : Int))

theorem takeWhile_of_all {p : Char → Bool} {s : Str}
    (h : ∀ c ∈ s, p c = true) : s.takeWhile p = s := by
  induction s with
  | nil => rfl
  | cons c rest ih =>
    have hc : p c = true := h c (List.mem_cons_self c rest)
    simp [List.takeWhile_cons, hc, ih fun x hx => h x (List.mem_cons_of_mem _ hx)]

theorem parseIntJS_natRepr (n : Nat) : parseIntJS (natRepr n) = some (n : Int) := by
  obtain ⟨hne, hdig, hval⟩ := natRepr_digits n
  obtain ⟨c, rest, hcr⟩ := List.exists_cons_of_ne_nil hne
  have hc : isDigitCh c = true := hdig c (by rw [hcr]; exact List.mem_cons_self c rest)
  have hnw : isWsCh c = false := by
    simp only [isDigitCh, decide_eq_true_eq] at hc
    simp only [isWsCh, decide_eq_false_iff_not]
    omega
  have hminus : c ≠ '-' := by
    intro hcc; subst hcc; simp [isDigitCh] at hc
  have hplus : c ≠ '+' := by
    intro hcc; subst hcc; simp [isDigitCh] at hc
  have htake : takeDigits (natRepr n) = natRepr n := takeWhile_of_all hdig
  have htake2 : takeDigits (c :: rest) = c :: rest := by rw [← hcr]; exact htake
  have hval2 : digitsVal (c :: rest) = n := by rw [← hcr]; exact hval
  rw [parseIntJS, hcr, List.dropWhile_cons, hnw]
  simp [hminus, hplus, htake2, hval2]

end StrUtil

namespace Crypto

/-- UTF-8 encoding of one character (`Buffer.from(string)` and
`TextEncoder` both encode strings as UTF-8). -/
def utf8Char (c : Char) : List Nat :=
  let n := c.toNat
  if n < 128 then [n]
  else if n < 2048 then [192 + n / 64, 128 + n % 64]
  else if n < 65536 then [224 + n / 4096, 128 + n / 64 % 64, 128 + n % 64]
  else [240 + n / 262144, 128 + n / 4096 % 64, 128 + n / 64 % 64, 128 + n % 64]

/-- UTF-8 encoding of a string as a byte list. -/
def utf8 : Str → List Nat
  | [] => []
  | c :: rest => utf8Char c ++ utf8 rest

theorem utf8Char_ascii {c : Char} (h : c.toNat < 128) : utf8Char c = [c.toNat] := by
  simp [utf8Char, h]

/-- 32-bit addition. -/
def add32 (a b : Nat) : Nat := (a + b) % 4294967296

/-- 32-bit right rotation. -/
def rotr32 (k w : Nat) : Nat :=
  ((w >>> k) ||| (w <<< (32 - k))) % 4294967296

/-- 32-bit complement. -/
def not32 (w : Nat) : Nat := 4294967295 ^^^ w

/-- The 64 SHA-256 round constants of FIPS 180-4 (decimal). -/
def shaK : List Nat :=
  [1116352408, 1899447441, 3049323471, 3921009573,
   961987163, 1508970993, 2453635748, 2870763221,
   3624381080, 310598401, 607225278, 1426881987,
   1925078388, 2162078206, 2614888103, 3248222580,
   3835390401, 4022224774, 264347078, 604807628,
   770255983, 1249150122, 1555081692, 1996064986,
   2554220882, 2821834349, 2952996808, 3210313671,
   3336571891, 3584528711, 113926993, 338241895,
   666307205, 773529912, 1294757372, 1396182291,
   1695183700, 1986661051, 2177026350, 2456956037,
   2730485921, 2820302411, 3259730800, 3345764771,
   3516065817, 3600352804, 4094571909, 275423344,
   430227734, 506948616, 659060556, 883997877,
   958139571, 1322822218, 1537002063, 1747873779,
   1955562222, 2024104815, 2227730452, 2361852424,
   2428436474, 2756734187, 3204031479, 3329325298]

/-- Hash state: the eight 32-bit words of the SHA-256 chaining value. -/
structure Sha256St where
  h0 : Nat
  h1 : Nat
  h2 : Nat
  h3 : Nat
  h4 : Nat
  h5 : Nat
  h6 : Nat
  h7 : Nat

/-- The SHA-256 initial hash value of FIPS 180-4 (decimal). -/
def shaInit : Sha256St :=
  ⟨1779033703, 3144134277, 1013904242, 2773480762,
   1359893119, 2600822924, 528734635, 1541459225⟩

/-- Big-endian 32-bit word from four bytes. -/
def word32be (b0 b1 b2 b3 : Nat) : Nat :=
  ((b0 % 256) * 16777216 + (b1 % 256) * 65536 + (b2 % 256) * 256 + b3 % 256)

/-- Big-endian words of a (64-byte) block. -/
def blockWords : List Nat → List Nat
  | b0 :: b1 :: b2 :: b3 :: rest => word32be b0 b1 b2 b3 :: blockWords rest
  | _ => []

/-- Small sigma 0. -/
def ssig0 (w : Nat) : Nat := rotr32 7 w ^^^ rotr32 18 w ^^^ (w >>> 3)

/-- Small sigma 1. -/
def ssig1 (w : Nat) : Nat := rotr32 17 w ^^^ rotr32 19 w ^^^ (w >>> 10)

/-- Big sigma 0. -/
def bsig0 (w : Nat) : Nat := rotr32 2 w ^^^ rotr32 13 w ^^^ rotr32 22 w

/-- Big sigma 1. -/
def bsig1 (w : Nat) : Nat := rotr32 6 w ^^^ rotr32 11 w ^^^ rotr32 25 w

/-- Extend the 16-word message schedule by `k` further words. -/
def extendW : Nat → List Nat → List Nat
  | 0, w => w
  | k + 1, w =>
    let t := w.length
    let nw := add32 (add32 (ssig1 (w.getD (t - 2) 0)) (w.getD (t - 7) 0))
                    (add32 (ssig0 (w.getD (t - 15) 0)) (w.getD (t - 16) 0))
    extendW k (w ++ [nw])

/-- One SHA-256 compression round. -/
def shaRound (k w : Nat) (r : Sha256St) : Sha256St :=
  let ch := (r.h4 &&& r.h5) ^^^ (not32 r.h4 &&& r.h6)
  let maj := (r.h0 &&& r.h1) ^^^ (r.h0 &&& r.h2) ^^^ (r.h1 &&& r.h2)
  let t1 := add32 (add32 (add32 r.h7 (bsig1 r.h4)) (add32 ch k)) w
  let t2 := add32 (bsig0 r.h0) maj
  ⟨add32 t1 t2, r.h0, r.h1, r.h2, add32 r.h3 t1, r.h4, r.h5, r.h6⟩

/-- Run the 64 rounds over paired constants and schedule words. -/
def shaRounds : List Nat → List Nat → Sha256St → Sha256St
  | k :: ks, w :: ws, r => shaRounds ks ws (shaRound k w r)
  | _, _, r => r

/-- Compress one 64-byte block into the chaining state. -/
def shaBlock (st : Sha256St) (block : List Nat) : Sha256St :=
  let ws := extendW 48 (blockWords block)
  let r := shaRounds shaK ws st
  ⟨add32 st.h0 r.h0, add32 st.h1 r.h1, add32 st.h2 r.h2, add32 st.h3 r.h3,
   add32 st.h4 r.h4, add32 st.h5 r.h5, add32 st.h6 r.h6, add32 st.h7 r.h7⟩

/-- SHA-256 padding: `0x80`, zeros, and the 64-bit big-endian bit length. -/
def shaPad (msg : List Nat) : List Nat :=
  let len := msg.length
  let r := (len + 1) % 64
  let zeros := if r ≤ 56 then 56 - r else 56 + 64 - r
  let bits := len * 8 % 18446744073709551616
  msg ++ 0x80 :: List.replicate zeros 0 ++
    [bits / 72057594037927936 % 256, bits / 281474976710656 % 256,
     bits / 1099511627776 % 256, bits / 4294967296 % 256,
     bits / 16777216 % 256, bits / 65536 % 256, bits / 256 % 256, bits % 256]

/-- Split a padded message into 64-byte blocks (fuel: the list length). -/
def chunks64Aux : Nat → List Nat → List (List Nat)
  | _, [] => []
  | 0, _ => []
  | fuel + 1, l => l.take 64 :: chunks64Aux fuel (l.drop 64)

/-- The 64-byte blocks of a padded message. -/
def chunks64 (l : List Nat) : List (List Nat) := chunks64Aux l.length l

/-- The 32 digest bytes of a final chaining state, big-endian. -/
def word4 (w : Nat) : List Nat :=
  [w / 16777216 % 256, w / 65536 % 256, w / 256 % 256, w % 256]

/-- Digest bytes of a state. -/
def digestBytes (st : Sha256St) : List Nat :=
  word4 st.h0 ++ word4 st.h1 ++ word4 st.h2 ++ word4 st.h3 ++
  word4 st.h4 ++ word4 st.h5 ++ word4 st.h6 ++ word4 st.h7

/-- SHA-256 of a byte list. -/
def sha256Bytes (msg : List Nat) : List Nat :=
  digestBytes ((chunks64 (shaPad msg)).foldl shaBlock shaInit)

/-- HMAC-SHA256 over byte lists (RFC 2104, block size 64). -/
def hmacSha256 (key msg : List Nat) : List Nat :=
  let k0 := if key.length > 64 then sha256Bytes key else key
  let kp := k0 ++ List.replicate (64 - k0.length) 0
  let ipad := kp.map (fun b => b ^^^ 0x36)
  let opad := kp.map (fun b => b ^^^ 0x5c)
  sha256Bytes (opad ++ sha256Bytes (ipad ++ msg))

/-- Lower-case hexadecimal digit characters. -/
def hexChars : Str :=
  StrUtil.decChars ++ ['a', 'b', 'c', 'd', 'e', 'f']

/-- Hexadecimal digit character for `n % 16`. -/
def hexDigitCh (n : Nat) : Char := hexChars.getD (n % 16) '0'

/-- Two hex characters of one byte. -/
def hexByte (b : Nat) : Str := [hexDigitCh (b / 16), hexDigitCh b]

/-- Hex encoding of a byte list (`digest('hex')`, `encode(..., 'hex')`). -/
def bytesToHex : List Nat → Str
  | [] => []
  | b :: bs => hexByte b ++ bytesToHex bs

/-- The hex HMAC-SHA256 signature of a message string under a secret
string, as computed by `crypto.createHmac('sha256', secret)
.update(msg).digest('hex')` and by the PL/pgSQL
`encode(hmac(msg, secret, 'sha256'), 'hex')`. -/
def hmacSha256Hex (secret msg : Str) : Str :=
  bytesToHex (hmacSha256 (utf8 secret) (utf8 msg))

theorem hexDigitCh_mem (n : Nat) : hexDigitCh n ∈ hexChars := by
  have h : n % 16 < 16 := Nat.mod_lt _ (by decide)
  have : ∀ k, k < 16 → hexChars.getD k '0' ∈ hexChars := by decide
  exact this _ h

theorem bytesToHex_mem {c : Char} : ∀ {bs : List Nat},
    c ∈ bytesToHex bs → c ∈ hexChars := by
  intro bs
  induction bs with
  | nil => intro h; simp [bytesToHex] at h
  | cons b rest ih =>
    intro h
    rw [bytesToHex] at h
    rcases List.mem_append.mp h with h | h
    · have h2 : c = hexDigitCh (b / 16) ∨ c = hexDigitCh b := by
        simpa [hexByte] using h
      rcases h2 with h2 | h2 <;> exact h2 ▸ hexDigitCh_mem _
    · exact ih h

theorem bytesToHex_length : ∀ bs : List Nat,
    (bytesToHex bs).length = 2 * bs.length := by
  intro bs
  induction bs with
  | nil => rfl
  | cons b rest ih => simp [bytesToHex, hexByte, ih]; omega

theorem digestBytes_length (st : Sha256St) : (digestBytes st).length = 32 := by
  simp [digestBytes, word4]

theorem hmacSha256Hex_length (secret msg : Str) :
    (hmacSha256Hex secret msg).length = 64 := by
  rw [hmacSha256Hex, bytesToHex_length, hmacSha256, sha256Bytes,
    digestBytes_length]

theorem hmacSha256Hex_mem {c : Char} {secret msg : Str}
    (h : c ∈ hmacSha256Hex secret msg) : c ∈ hexChars :=
  bytesToHex_mem h

theorem hmacSha256Hex_ne_nil (secret msg : Str) :
    hmacSha256Hex secret msg ≠ [] := by
  intro h
  have := hmacSha256Hex_length secret msg
  rw [h] at this
  simp at this

end Crypto

namespace WebhookSig

open StrUtil Crypto

/-- Failure kinds thrown by `WebhookSignatureService.verifySignature`:
missing secret, malformed header, stale timestamp, the `RangeError`
raised by `crypto.timingSafeEqual` on buffers of different lengths,
and the final invalid-signature error. -/
inductive SigError
  | noSecret
  | malformedHeader
  | staleTimestamp
  | bufferLengthMismatch
  | invalidSignature
deriving DecidableEq, Repr

/-- `crypto.timingSafeEqual(Buffer.from(a), Buffer.from(b))`: throws
(`.error`) when the byte buffers have different lengths, otherwise
returns the constant-time byte equality. -/
def timingSafeEqual (a b : List Nat) : Except Unit Bool :=
  if a.length = b.length then .ok (a == b) else .error ()

/-- The key/value pairs parsed out of a `t=…,v1=…` header: split on
`,`, split each element on `=`, keep the first two fields when both
are non-empty (JavaScript `if (key && value)`). -/
def headerPairs (signatureHeader : Str) : List (Str × Str) :=
  (splitChar ',' signatureHeader).filterMap fun el =>
    match splitChar '=' el with
    | k :: v :: _ => if k ≠ [] ∧ v ≠ [] then some (k, v) else none
    | _ => none

/-- The value of a key in `signatureParts`: later elements overwrite
earlier ones, as repeated record assignment does. -/
def lookupLast (key : Str) (pairs : List (Str × Str)) : Option Str :=
  pairs.foldl (fun acc kv => if kv.1 = key then some kv.2 else acc) none

/-- The timestamp-staleness test: `Math.abs(now - parseInt(t, 10)) >
300`. A `NaN` timestamp (`none`) compares `false` in JavaScript and
so does not trip the check. -/
def staleCheck (tval : Str) (now : Int) : Bool :=
  match parseIntJS tval with
  | none => false
  | some t => decide ((now - t).natAbs > 300)

/-- `WebhookSignatureService.verifySignature(payload, signatureHeader)`
with the configured secret and the current clock made explicit.  It
either returns `true` or throws one of the `SigError`s; it never
returns `false`. -/
def verifySignature (payload signatureHeader secret : Str) (now : Int) :
    Except SigError Bool :=
  if secret = [] then .error .noSecret
  else
    let pairs := headerPairs signatureHeader
    match lookupLast ['t'] pairs, lookupLast ['v', '1'] pairs with
    | some tval, some sval =>
      if staleCheck tval now then .error .staleTimestamp
      else
        let expected := hmacSha256Hex secret (tval ++ '.' :: payload)
        match timingSafeEqual (utf8 sval) (utf8 expected) with
        | .error _ => .error .bufferLengthMismatch
        | .ok b => if b then .ok true else .error .invalidSignature
    | _, _ => .error .malformedHeader

/-- `WebhookSignatureService.generateSignature(payload)` with the
secret and the clock made explicit: header `t=<now>,v1=<hex hmac>`. -/
def generateSignature (payload secret : Str) (now : Nat) :
    Except Unit Str :=
  if secret = [] then .error ()
  else .ok (['t', '='] ++ natRepr now ++ [','] ++ ['v', '1', '='] ++
    hmacSha256Hex secret (natRepr now ++ '.' :: payload))

theorem headerPairs_generated (payload secret : Str) (ts : Nat) :
    headerPairs (['t', '='] ++ StrUtil.natRepr ts ++ [','] ++ ['v', '1', '='] ++
        Crypto.hmacSha256Hex secret (StrUtil.natRepr ts ++ '.' :: payload)) =
      [(['t'], StrUtil.natRepr ts),
       (['v', '1'], Crypto.hmacSha256Hex secret (StrUtil.natRepr ts ++ '.' :: payload))] := by
  obtain ⟨hne, hdig, -⟩ := StrUtil.natRepr_digits ts
  set r := StrUtil.natRepr ts with hr
  set hx := Crypto.hmacSha256Hex secret (r ++ '.' :: payload) with hhx
  have hcomma_r : (',') ∉ r := fun hm => StrUtil.digit_not_comma (hdig _ hm) rfl
  have heq_r : ('=') ∉ r := fun hm => StrUtil.digit_not_eq_sign (hdig _ hm) rfl
  have hcomma_hx : (',') ∉ hx := fun hm => by
    have := Crypto.hmacSha256Hex_mem hm
    simp [Crypto.hexChars, StrUtil.decChars] at this
  have heq_hx : ('=') ∉ hx := fun hm => by
    have := Crypto.hmacSha256Hex_mem hm
    simp [Crypto.hexChars, StrUtil.decChars] at this
  have hsplit1 : StrUtil.splitChar ',' (['t', '='] ++ r ++ [','] ++ ['v', '1', '='] ++ hx)
      = (['t', '='] ++ r) :: [['v', '1', '='] ++ hx] := by
    have hmem : (',') ∉ ['t', '='] ++ r := by
      intro hm
      rcases List.mem_append.mp hm with hm | hm
      · simp at hm
      · exact hcomma_r hm
    have harr : ['t', '='] ++ r ++ [','] ++ ['v', '1', '='] ++ hx
        = (['t', '='] ++ r) ++ ',' :: (['v', '1', '='] ++ hx) := by
      simp
    rw [harr, StrUtil.splitChar_append_cons _ hmem]
    have hmem2 : (',') ∉ ['v', '1', '='] ++ hx := by
      intro hm
      rcases List.mem_append.mp hm with hm | hm
      · simp at hm
      · exact hcomma_hx hm
    rw [StrUtil.splitChar_of_not_mem hmem2]
  have hsplit_t : StrUtil.splitChar '=' (['t', '='] ++ r) = [['t'], r] := by
    have harr : ['t', '='] ++ r = ['t'] ++ '=' :: r := by simp
    rw [harr, StrUtil.splitChar_append_cons _ (by simp),
      StrUtil.splitChar_of_not_mem heq_r]
  have hsplit_v : StrUtil.splitChar '=' (['v', '1', '='] ++ hx) = [['v', '1'], hx] := by
    have harr : ['v', '1', '='] ++ hx = ['v', '1'] ++ '=' :: hx := by simp
    rw [harr, StrUtil.splitChar_append_cons _ (by simp),
      StrUtil.splitChar_of_not_mem heq_hx]
  have hhxne : hx ≠ [] := Crypto.hmacSha256Hex_ne_nil _ _
  rw [headerPairs, hsplit1]
  simp only [List.filterMap_cons, hsplit_t, hsplit_v]
  simp [hne, hhxne]

/-- Round-trip helper: a header produced by `generateSignature` with
timestamp `ts` verifies at clock `now = ts`. -/
theorem verify_generate (payload secret : Str) (ts : Nat)
    (hsecret : secret ≠ []) (header : Str)
    (hgen : generateSignature payload secret ts = .ok header) :
    verifySignature payload header secret (ts : Int) = .ok true := by
  rw [generateSignature, if_neg hsecret] at hgen
  injection hgen with hgen
  subst hgen
  rw [verifySignature, if_neg hsecret]
  simp only [headerPairs_generated payload secret ts]
  have hlook_t : lookupLast ['t']
      [(['t'], StrUtil.natRepr ts),
       (['v', '1'], Crypto.hmacSha256Hex secret (StrUtil.natRepr ts ++ '.' :: payload))]
      = some (StrUtil.natRepr ts) := by
    simp [lookupLast, List.foldl]
  have hlook_v : lookupLast ['v', '1']
      [(['t'], StrUtil.natRepr ts),
       (['v', '1'], Crypto.hmacSha256Hex secret (StrUtil.natRepr ts ++ '.' :: payload))]
      = some (Crypto.hmacSha256Hex secret (StrUtil.natRepr ts ++ '.' :: payload)) := by
    simp [lookupLast, List.foldl]
  rw [hlook_t, hlook_v]
  have hstale : staleCheck (StrUtil.natRepr ts) (ts : Int) = false := by
    rw [staleCheck, StrUtil.parseIntJS_natRepr]
    simp
  simp only [hstale, Bool.false_eq_true, if_false, timingSafeEqual, if_pos rfl]
  simp

end WebhookSig

namespace EdgeFn

open StrUtil Crypto

/-- The `verifySignature` of the `crm-webhook` edge function.  The
header format there is `<timestamp>.<signature>`.  After the
freshness check the function computes a digest it never uses and
`return`s `sig.length === 64`: any 64-character signature passes.  A
header without a `.` makes `sig` undefined, so `sig.length` throws
and the `catch` returns `false`; a `NaN` timestamp does not trip the
freshness check (JavaScript `NaN > 300` is `false`). -/
def edgeVerifySignature (payload signature secret : Str) (now : Int) : Bool :=
  match splitChar '.' signature with
  | tstr :: sigpart :: _ =>
    if WebhookSig.staleCheck tstr now then false
    else sigpart.length == 64
  | _ => false

/-- `crm.tenants.status` values. -/
inductive TenantStatus
  | pending
  | active
  | disabled
  | deleted
deriving DecidableEq, Repr

/-- A row of the control-plane `crm.tenants` table (the columns the
edge function touches). -/
structure CrmTenant where
  subdomain : Str
  crm_workspace_id : Option Str
  status : TenantStatus
  disabled_at : Option Int
  disabled_reason : Option Str
  updated_at : Int
deriving DecidableEq, Repr

/-- The webhook events the edge function dispatches on, with the
payload fields each handler reads. -/
inductive EdgeEvent
  | tenantCreated (subdomain : Str) (crmWorkspaceId : Str)
  | tenantDisabled (crmWorkspaceId : Str) (disabledAt : Option Int)
      (reason : Option Str)
  | tenantEnabled (crmWorkspaceId : Str)
  | tenantDeleted (crmWorkspaceId : Str)
  | unknownEvent
deriving DecidableEq, Repr

/-- The row update performed by each event handler of the edge
function, together with the HTTP status of the acknowledgement (the
handler falls through to a single 200 response; errors from the
store are logged, not returned, on the disable/enable/delete arms). -/
def edgeApplyEvent (ev : EdgeEvent) (tbl : List CrmTenant) (now : Int) :
    List CrmTenant × Nat :=
  match ev with
  | .tenantCreated sd wid =>
    (tbl.map fun t =>
      if t.subdomain = sd then
        { t with crm_workspace_id := some wid, status := .active,
                 updated_at := now }
      else t, 200)
  | .tenantDisabled wid dat reason =>
    (tbl.map fun t =>
      if t.crm_workspace_id = some wid then
        { t with status := .disabled, disabled_at := some (dat.getD now),
                 disabled_reason := reason, updated_at := now }
      else t, 200)
  | .tenantEnabled wid =>
    (tbl.map fun t =>
      if t.crm_workspace_id = some wid then
        { t with status := .active, disabled_at := none,
                 disabled_reason := none, updated_at := now }
      else t, 200)
  | .tenantDeleted wid =>
    (tbl.map fun t =>
      if t.crm_workspace_id = some wid then
        { t with status := .deleted, crm_workspace_id := none,
                 updated_at := now }
      else t, 200)
  | .unknownEvent => (tbl, 200)

end EdgeFn

namespace CrmAdmin

/-- A row of the data-plane `core.workspace` table (the columns the
tenant admin service touches). -/
structure Workspace where
  id : Str
  displayName : Str
  subdomain : Str
  isDisabled : Bool
  disabledAt : Option Int
  disabledReason : Option Str
  adminNotes : Option Str
deriving DecidableEq, Repr

/-- `workspaceRepository.findOneOrFail({ where: { id } })`, result as
an `Option` (the `none` case is the thrown `EntityNotFound`). -/
def findWorkspace (tbl : List Workspace) (tid : Str) : Option Workspace :=
  tbl.find? fun w => w.id == tid

/-- `workspaceRepository.save(w)`: replace the row with `w`'s id. -/
def saveWorkspace (tbl : List Workspace) (w : Workspace) : List Workspace :=
  tbl.map fun x => if x.id = w.id then w else x

/-- `TenantAdminService.disableTenant(tenantId, reason?)`: sets
`isDisabled`, stamps `disabledAt` with the current time, stores the
(possibly absent) reason. -/
def disableTenant (tbl : List Workspace) (tid : Str) (reason : Option Str)
    (now : Int) : Except Unit (Workspace × List Workspace) :=
  match findWorkspace tbl tid with
  | none => .error ()
  | some w =>
    let w2 := { w with isDisabled := true, disabledAt := some now,
                       disabledReason := reason }
    .ok (w2, saveWorkspace tbl w2)

/-- `TenantAdminService.enableTenant(tenantId)`: clears `isDisabled`,
`disabledAt` and `disabledReason`. -/
def enableTenant (tbl : List Workspace) (tid : Str) :
    Except Unit (Workspace × List Workspace) :=
  match findWorkspace tbl tid with
  | none => .error ()
  | some w =>
    let w2 := { w with isDisabled := false, disabledAt := none,
                       disabledReason := none }
    .ok (w2, saveWorkspace tbl w2)

/-- `TenantAdminService.updateAdminNotes(tenantId, notes)`. -/
def updateAdminNotes (tbl : List Workspace) (tid : Str) (notes : Str) :
    Except Unit (Workspace × List Workspace) :=
  match findWorkspace tbl tid with
  | none => .error ()
  | some w =>
    let w2 := { w with adminNotes := some notes }
    .ok (w2, saveWorkspace tbl w2)

theorem find_save {tbl : List Workspace} {tid : Str} {w w2 : Workspace}
    (hf : findWorkspace tbl tid = some w) (hid : w2.id = w.id) :
    findWorkspace (saveWorkspace tbl w2) tid = some w2 := by
  have hwid : w.id = tid := by
    have := List.find?_some hf
    simpa using this
  induction tbl with
  | nil => simp [findWorkspace] at hf
  | cons x rest ih =>
    by_cases hx : x.id = tid
    · have hfx : findWorkspace (x :: rest) tid = some x := by
        simp [findWorkspace, List.find?_cons, hx]
      rw [hf] at hfx
      injection hfx with hfx
      have hxw2 : x.id = w2.id := by rw [hx, ← hwid, hid]
      simp [findWorkspace, saveWorkspace, List.find?_cons, hxw2, hid, hwid, hx]
    · have hstep : findWorkspace (x :: rest) tid = findWorkspace rest tid := by
        simp [findWorkspace, List.find?_cons, hx]
      rw [hstep] at hf
      have hxne : ¬ x.id = w2.id := by rw [hid, hwid]; exact hx
      have := ih hf
      simpa [findWorkspace, saveWorkspace, List.find?_cons, hxne, hx] using this

theorem save_save (tbl : List Workspace) (w : Workspace) :
    saveWorkspace (saveWorkspace tbl w) w = saveWorkspace tbl w := by
  induction tbl with
  | nil => rfl
  | cons x rest ih =>
    have ih2 : List.map (fun x => if x.id = w.id then w else x)
        (List.map (fun x => if x.id = w.id then w else x) rest)
        = List.map (fun x => if x.id = w.id then w else x) rest := ih
    by_cases hx : x.id = w.id <;> simp [saveWorkspace, hx, ih2]

/-- ASCII lower-casing (the effect of SQL `ILIKE` on the search). -/
def lowerCh (c : Char) : Char :=
  if 65 ≤ c.toNat ∧ c.toNat ≤ 90 then Char.ofNat (c.toNat + 32) else c

/-- Does `pat` occur as a prefix of `hay`? -/
def prefixOf : Str → Str → Bool
  | [], _ => true
  | _ :: _, [] => false
  | p :: ps, h :: hs => p = h && prefixOf ps hs

/-- Does `pat` occur somewhere inside `hay`? -/
def containsSub (pat : Str) : Str → Bool
  | [] => pat.isEmpty
  | c :: rest => prefixOf pat (c :: rest) || containsSub pat rest

/-- `column ILIKE '%search%'`: case-insensitive containment. -/
def containsCI (hay pat : Str) : Bool :=
  containsSub (pat.map lowerCh) (hay.map lowerCh)

/-- The filtering of `TenantAdminService.getAllTenants` (no ordering
clause; the table order stands in for the store's return order). -/
def getAllTenants (tbl : List Workspace) (includeDisabled : Bool)
    (search : Option Str) : List Workspace :=
  (if includeDisabled then tbl else tbl.filter fun w => !w.isDisabled).filter
    fun w =>
      match search with
      | none => true
      | some s => containsCI w.displayName s || containsCI w.subdomain s

/-- `TenantWebhookController.resolveTenantId`: the `tenantId` field if
truthy, else the first workspace matching a search for the (truthy)
`tenantEmail`, else `null`. -/
def resolveTenantId (tenantId tenantEmail : Option Str)
    (tbl : List Workspace) : Option Str :=
  match tenantId with
  | some tid =>
    if tid = [] then resolveByEmail tenantEmail tbl else some tid
  | none => resolveByEmail tenantEmail tbl
where
  resolveByEmail (tenantEmail : Option Str) (tbl : List Workspace) :
      Option Str :=
    match tenantEmail with
    | some em =>
      if em = [] then none
      else
        match getAllTenants tbl true (some em) with
        | [] => none
        | w :: _ => some w.id
    | none => none

/-- The webhook event types `TenantWebhookController` dispatches on. -/
inductive CrmWebhookEvent
  | tenantDisabledEvt
  | tenantEnabledEvt
  | subCancelledEvt
  | subUpdatedEvt
  | userRemovedEvt
  | otherEvt
deriving DecidableEq, Repr

/-- The `data` object of the controller's webhook payload. -/
structure WebhookData where
  tenantId : Option Str
  tenantEmail : Option Str
  reason : Option Str
deriving DecidableEq, Repr

/-- Non-2xx outcomes of `TenantWebhookController.handleWebhook`: a
signature failure is rethrown as an `AuthException FORBIDDEN`; an
unresolvable tenant is an `AuthException INVALID_INPUT`; a missing
workspace makes `findOneOrFail` throw. -/
inductive HandleError
  | sigFailure (e : WebhookSig.SigError)
  | invalidInput
  | entityNotFound
deriving DecidableEq, Repr

/-- The fallback reason `data.reason || 'Disabled via webhook'`. -/
def defaultDisableReason : Str := "Disabled via webhook".data

/-- `TenantWebhookController.handleWebhook`: verify the signature over
the raw body, then route by event type.  Success is the HTTP 200
acknowledgement together with the updated workspace table. -/
def handleWebhook (rawBody signature secret : Str) (now : Int)
    (event : CrmWebhookEvent) (data : WebhookData)
    (tbl : List Workspace) : Except HandleError (List Workspace × Nat) :=
  match WebhookSig.verifySignature rawBody signature secret now with
  | .error e => .error (.sigFailure e)
  | .ok _ =>
    match event with
    | .tenantDisabledEvt | .subCancelledEvt =>
      match resolveTenantId data.tenantId data.tenantEmail tbl with
      | none => .error .invalidInput
      | some tid =>
        let reason :=
          match data.reason with
          | some r => if r = [] then defaultDisableReason else r
          | none => defaultDisableReason
        match disableTenant tbl tid (some reason) now with
        | .error _ => .error .entityNotFound
        | .ok (_, tbl2) => .ok (tbl2, 200)
    | .tenantEnabledEvt | .subUpdatedEvt =>
      match resolveTenantId data.tenantId data.tenantEmail tbl with
      | none => .error .invalidInput
      | some tid =>
        match enableTenant tbl tid with
        | .error _ => .error .entityNotFound
        | .ok (_, tbl2) => .ok (tbl2, 200)
    | .userRemovedEvt => .ok (tbl, 200)
    | .otherEvt => .ok (tbl, 200)

end CrmAdmin

namespace Queue

/-- `core.webhook_queue.status` values. -/
inductive WStatus
  | pending
  | sending
  | sent
  | failed
deriving DecidableEq, Repr

/-- A row of the `core.webhook_queue` table. -/
structure WebhookRow where
  wid : Nat
  webhook_url : Str
  event_type : Str
  payload : Str
  status : WStatus
  attempts : Nat
  max_attempts : Nat
  last_error : Option Str
  created_at : Int
  sent_at : Option Int
  next_retry_at : Option Int
deriving DecidableEq, Repr

/-- The two `core.webhook_config` rows `send_webhook` reads. -/
structure WebhookConfig where
  supabase_webhook_url : Option Str
  webhook_secret : Option Str
deriving DecidableEq, Repr

/-- The placeholder URL that counts as unconfigured. -/
def placeholderUrl : Str :=
  "https://your-project.supabase.co/functions/v1/crm-webhook".data

/-- `v_webhook_url IS NULL OR v_webhook_url = '<placeholder>'`. -/
def webhookConfigured (cfg : WebhookConfig) : Bool :=
  match cfg.supabase_webhook_url with
  | none => false
  | some u => !(u == placeholderUrl)

/-- Single-row `UPDATE core.webhook_queue ... WHERE id = i`. -/
def updateRow (q : List WebhookRow) (i : Nat)
    (f : WebhookRow → WebhookRow) : List WebhookRow :=
  q.map fun r => if r.wid = i then f r else r

/-- `core.send_webhook(p_event_type, p_payload)`.

Environment parameters: `now` is `NOW()`; `nid` the id
`gen_random_uuid()` hands the inserted row; `postRaises` is `some
sqlerrm` when the `net.http_post` call itself raises inside the
function (pg_net only enqueues the request, so this covers malformed
arguments, not delivery); `respStatus` is the HTTP status the target
will eventually return to the pg_net worker — it is listed to make
explicit that the function completes before any response exists and
cannot read it.

When the URL is unconfigured the event is only queued (`pending`).
Otherwise the row is inserted as `sending` and, once `net.http_post`
returns a request id, immediately updated to `sent`; the `EXCEPTION`
handler marks the row `failed` with `attempts + 1` and `next_retry_at
= now + 60·2^attempts` (the `POWER(2, attempts)` reads the
pre-increment value). -/
def send_webhook (cfg : WebhookConfig) (q : List WebhookRow)
    (etype payload : Str) (now : Int) (postRaises : Option Str)
    (respStatus : Nat) (nid : Nat) : Nat × List WebhookRow :=
  if webhookConfigured cfg = false then
    (nid, q ++ [⟨nid, cfg.supabase_webhook_url.getD "not-configured".data,
      etype, payload, .pending, 0, 5, none, now, none, some now⟩])
  else
    let url := cfg.supabase_webhook_url.getD []
    let q1 := q ++ [⟨nid, url, etype, payload, .sending, 0, 5, none, now,
      none, some now⟩]
    match postRaises with
    | none =>
      (nid, updateRow q1 nid fun r =>
        { r with status := .sent, sent_at := some now })
    | some err =>
      (nid, updateRow q1 nid fun r =>
        { r with status := .failed, last_error := some err,
                 attempts := r.attempts + 1,
                 next_retry_at := some (now + 60 * 2 ^ r.attempts) })

/-- The row filter of `core.retry_failed_webhooks`. -/
def eligibleRetry (now : Int) (r : WebhookRow) : Bool :=
  r.status == .failed && r.attempts < r.max_attempts &&
    (match r.next_retry_at with
     | some t => decide (t ≤ now)
     | none => false)

/-- Stable insertion for ordering by `created_at`. -/
def insertByCreated (r : WebhookRow) : List WebhookRow → List WebhookRow
  | [] => [r]
  | x :: xs =>
    if x.created_at ≤ r.created_at then x :: insertByCreated r xs
    else r :: x :: xs

/-- `ORDER BY created_at`. -/
def sortByCreated : List WebhookRow → List WebhookRow
  | [] => []
  | x :: xs => insertByCreated x (sortByCreated xs)

/-- `core.retry_failed_webhooks()`: loop over up to 100 `failed` rows
with `attempts < max_attempts` and `next_retry_at <= NOW()` in
creation order and call `core.send_webhook` for each — which inserts
a fresh queue row per retried event; the looped-over rows themselves
are never updated.  `postRaises i` is the outcome of the `i`-th
nested `net.http_post`; fresh row ids are `nidStart`, `nidStart + 1`,
….  Returns the loop count and the final queue. -/
def retry_failed_webhooks (cfg : WebhookConfig) (q : List WebhookRow)
    (now : Int) (postRaises : Nat → Option Str) (nidStart : Nat) :
    Nat × List WebhookRow :=
  let batch := (sortByCreated (q.filter (eligibleRetry now))).take 100
  batch.foldl
    (fun acc r =>
      let res := send_webhook cfg acc.2 r.event_type r.payload now
        (postRaises acc.1) 0 (nidStart + acc.1)
      (acc.1 + 1, res.2))
    (0, q)

end Queue

instance {e a : Type} [DecidableEq e] [DecidableEq a] :
    DecidableEq (Except e a) :=
  fun x y =>
    match x, y with
    | .ok u, .ok v =>
      if h : u = v then .isTrue (by rw [h])
      else .isFalse (fun hc => h (by injection hc))
    | .error u, .error v =>
      if h : u = v then .isTrue (by rw [h])
      else .isFalse (fun hc => h (by injection hc))
    | .ok _, .error _ => .isFalse (fun hc => Except.noConfusion hc)
    | .error _, .ok _ => .isFalse (fun hc => Except.noConfusion hc)

theorem Crypto.utf8_ascii_length {s : Str} (h : ∀ c ∈ s, c.toNat < 128) :
    (Crypto.utf8 s).length = s.length := by
  induction s with
  | nil => rfl
  | cons c rest ih =>
    have hc : c.toNat < 128 := h c (List.mem_cons_self c rest)
    rw [Crypto.utf8, Crypto.utf8Char_ascii hc]
    simp [ih fun x hx => h x (List.mem_cons_of_mem _ hx)]

theorem Crypto.hex_ascii {c : Char} (h : c ∈ Crypto.hexChars) : c.toNat < 128 := by
  have hall : ∀ x ∈ Crypto.hexChars, x.toNat < 128 := by decide
  exact hall c h

theorem Crypto.utf8_hmacHex_length (secret msg : Str) :
    (Crypto.utf8 (Crypto.hmacSha256Hex secret msg)).length = 64 := by
  rw [Crypto.utf8_ascii_length fun c hc => Crypto.hex_ascii (Crypto.hmacSha256Hex_mem hc)]
  exact Crypto.hmacSha256Hex_length secret msg

/-- C7: for every payload, secret, and timestamp, the header produced
by `generateSignature` (the Signature Codec's sign) verifies to `true`
under `verifySignature` when the verification clock reads `now =
timestamp` — the sign/verify round-trip of the codec. -/
theorem c7_sign_verify_roundtrip (payload secret : Str) (ts : Nat)
    (header : Str) (hsecret : secret ≠ [])
    (hgen : WebhookSig.generateSignature payload secret ts = .ok header) :
    WebhookSig.verifySignature payload header secret (ts : Int) = .ok true :=
  WebhookSig.verify_generate payload secret ts hsecret header hgen

/-- Witness for C7 at payload `"x"`, secret `"sk"`, timestamp 100. -/
theorem c7_sign_verify_roundtrip_witness :
    WebhookSig.verifySignature "x".data
      "t=100,v1=6a26c802fbc5259460ed3498ee94aa1fdec16d6993a2fb1de45f965f5660a1ac".data
      "sk".data 100 = .ok true :=
  c7_sign_verify_roundtrip "x".data "sk".data 100
    "t=100,v1=6a26c802fbc5259460ed3498ee94aa1fdec16d6993a2fb1de45f965f5660a1ac".data
    (by decide) (by set_option maxRecDepth 100000 in decide)

/-- C10, counterexample: a header whose `v1` component has length 3
(≠ 64) but whose timestamp is stale makes `verifySignature` throw the
stale-timestamp error, not the `crypto.timingSafeEqual` buffer-length
error the claim asserts for every short-`v1` header. -/
theorem c10_counterexample :
    WebhookSig.verifySignature "p".data "t=1,v1=abc".data "sk".data 1000
        = .error .staleTimestamp ∧
      WebhookSig.verifySignature "p".data "t=1,v1=abc".data "sk".data 1000
        ≠ .error .bufferLengthMismatch := by
  constructor <;> decide

/-- C10, amended: `verifySignature` never returns `false` (it returns
`true` or throws); and whenever verification reaches the comparison —
the secret is non-empty, both `t` and `v1` are present, and the
timestamp check does not fire — a `v1` whose byte length differs from
64 makes it throw the `crypto.timingSafeEqual` buffer-length error
rather than the clean invalid-signature error. -/
theorem c10_amended :
    (∀ payload header secret now,
        WebhookSig.verifySignature payload header secret now ≠ .ok false) ∧
    (∀ payload header secret now tval sval,
        secret ≠ [] →
        WebhookSig.lookupLast ['t'] (WebhookSig.headerPairs header) = some tval →
        WebhookSig.lookupLast ['v', '1'] (WebhookSig.headerPairs header) = some sval →
        WebhookSig.staleCheck tval now = false →
        (Crypto.utf8 sval).length ≠ 64 →
        WebhookSig.verifySignature payload header secret now
          = .error .bufferLengthMismatch) := by
  constructor
  · intro payload header secret now
    rw [WebhookSig.verifySignature]
    by_cases hs : secret = []
    · simp [hs]
    · rw [if_neg hs]
      rcases h1 : WebhookSig.lookupLast ['t'] (WebhookSig.headerPairs header)
        with _ | tval <;>
        rcases h2 : WebhookSig.lookupLast ['v', '1'] (WebhookSig.headerPairs header)
          with _ | sval
      · simp [h1, h2]
      · simp [h1, h2]
      · simp [h1, h2]
      · simp only [h1, h2]
        by_cases hst : WebhookSig.staleCheck tval now = true
        · simp [hst]
        · simp only [hst, Bool.false_eq_true, if_false]
          rcases h3 : WebhookSig.timingSafeEqual (Crypto.utf8 sval)
            (Crypto.utf8 (Crypto.hmacSha256Hex secret (tval ++ '.' :: payload)))
            with _ | b
          · simp
          · by_cases hb : b = true <;> simp [hb]
  · intro payload header secret now tval sval hs h1 h2 hst hlen
    rw [WebhookSig.verifySignature, if_neg hs]
    simp only [h1, h2, hst, Bool.false_eq_true, if_false]
    have hmis : WebhookSig.timingSafeEqual (Crypto.utf8 sval)
        (Crypto.utf8 (Crypto.hmacSha256Hex secret (tval ++ '.' :: payload)))
        = .error () := by
      rw [WebhookSig.timingSafeEqual, if_neg]
      rw [Crypto.utf8_hmacHex_length]
      exact hlen
    rw [hmis]

/-- Witness for C10 (amended) at header `t=100,v1=abc`, clock 100. -/
theorem c10_amended_witness :
    WebhookSig.verifySignature "p".data "t=100,v1=abc".data "sk".data 100
      = .error .bufferLengthMismatch :=
  c10_amended.2 "p".data "t=100,v1=abc".data "sk".data 100 "100".data "abc".data
    (by decide) (by decide) (by decide) (by decide) (by decide)

/-- C1: the claim fails on the edge-function path.  The edge
function's `verifySignature` accepts any fresh header whose signature
component has 64 characters — here 64 copies of `'z'`, which is not
even a hex string, let alone the HMAC — while the CRM-side
`WebhookSignatureService` rejects the same forged value with its
invalid-signature error.  The source comment (`For now, just check
the signature format is valid`) and §9 of the spec mark the edge
behavior as a latent defect, so the claim records a code bug. -/
theorem c1_edge_accepts_forged_signature :
    EdgeFn.edgeVerifySignature "{}".data
        ("1700000000.".data ++ List.replicate 64 'z') "sk".data 1700000000
        = true ∧
      List.replicate 64 'z'
        ≠ Crypto.hmacSha256Hex "sk".data "1700000000.{}".data ∧
      WebhookSig.verifySignature "{}".data
        ("t=1700000000,v1=".data ++ List.replicate 64 'z') "sk".data 1700000000
        = .error .invalidSignature := by
  refine ⟨by decide, ?_, by set_option maxRecDepth 1000000 in decide⟩
  intro h
  have hz : ('z') ∈ Crypto.hmacSha256Hex "sk".data "1700000000.{}".data := by
    rw [← h]
    exact List.mem_replicate.mpr ⟨by decide, rfl⟩
  have := Crypto.hmacSha256Hex_mem hz
  simp [Crypto.hexChars, StrUtil.decChars] at this

/-- C2: the claim fails on `core.send_webhook`.  `net.http_post` (the
pg_net extension) only enqueues the HTTP request and returns a
request id, so the function finishes — and marks the row `sent` with
`sent_at = now` — before any response exists.  The first conjunct
shows the result is independent of the response status the target
will eventually return; the second evaluates the function with a
target that answers 500 and still finds the row `sent`.  This
contradicts the claim (and spec §4.3), the table's own comment
(`Stores pending webhooks for retry if network fails`), and spec §8's
HTTP-500 scenario. -/
theorem c2_marked_sent_without_response :
    (∀ (respStatus : Nat) cfg q etype payload now postRaises nid,
        Queue.send_webhook cfg q etype payload now postRaises respStatus nid
          = Queue.send_webhook cfg q etype payload now postRaises 200 nid) ∧
      ((Queue.send_webhook ⟨some "https://e.example/f".data, some "s".data⟩
          [] "tenant.created".data "{}".data 50 none 500 7).2.map
          fun r => (r.status, r.sent_at, r.attempts))
        = [(Queue.WStatus.sent, some 50, 0)] := by
  exact ⟨fun _ _ _ _ _ _ _ _ => rfl, by decide⟩

/-- C3: the claim fails on `core.retry_failed_webhooks`.  Retrying a
failed row calls `core.send_webhook(event_type, payload)`, which
INSERTs a fresh `webhook_queue` row; the selected failed row is never
updated.  Here a queue holding one eligible failed row (attempts 1 <
max 5, `next_retry_at` due) is drained once: the loop reports one
retry, the original row is byte-for-byte unchanged — and therefore
still eligible for every future cycle — and a brand-new row (id 50,
attempts 0) has been appended.  The claim said retries mutate that
same row and never create new rows. -/
theorem c3_retry_creates_new_row :
    Queue.retry_failed_webhooks ⟨some "https://e.example/f".data, some "s".data⟩
        [⟨1, "https://e.example/f".data, "tenant.disabled".data, "{}".data,
          .failed, 1, 5, none, 0, none, some 10⟩]
        100 (fun _ => none) 50
      = (1, [⟨1, "https://e.example/f".data, "tenant.disabled".data, "{}".data,
          .failed, 1, 5, none, 0, none, some 10⟩,
        ⟨50, "https://e.example/f".data, "tenant.disabled".data, "{}".data,
          .sent, 0, 5, none, 100, some 100, some 100⟩]) ∧
      Queue.eligibleRetry 200
        ⟨1, "https://e.example/f".data, "tenant.disabled".data, "{}".data,
          .failed, 1, 5, none, 0, none, some 10⟩ = true := by
  constructor <;> decide

/-- C4, counterexample: a `tenant.enabled` event for a tenant in state
`deleted` (whose `crm_workspace_id` was cleared on deletion) matches
no row: the table is unchanged and the handler acknowledges with 200
— silently accepted, not rejected with `IllegalTransition` (no such
rejection exists in the code).  Moreover a `tenant.created` event for
the deleted tenant's subdomain sets its status to `active`: a
transition does leave state `deleted`. -/
theorem c4_counterexample :
    EdgeFn.edgeApplyEvent (.tenantEnabled "w1".data)
        [⟨"acme".data, none, .deleted, none, none, 0⟩] 100
      = ([⟨"acme".data, none, .deleted, none, none, 0⟩], 200) ∧
      ((EdgeFn.edgeApplyEvent (.tenantCreated "acme".data "w2".data)
          [⟨"acme".data, none, .deleted, none, none, 0⟩] 100).1.map
          fun t => t.status)
        = [.active] := by
  constructor <;> decide

/-- C4, amended: a transition event whose tenant is in a
non-matching state is silently acknowledged, not rejected: every
`tenant.enabled` event gets a 200 response, and any row whose
`crm_workspace_id` does not match the event (in particular a tenant
in state `deleted`, whose `crm_workspace_id` was cleared by the
delete handler) is left exactly as it was.  `deleted`/`disabled`
events behave the same way; only `tenant.created`, which matches on
subdomain, can move a tenant out of `deleted`. -/
theorem c4_amended (tbl : List EdgeFn.CrmTenant) (now : Int) (wid : Str) :
    (EdgeFn.edgeApplyEvent (.tenantEnabled wid) tbl now).2 = 200 ∧
      (∀ (i : Nat) (t : EdgeFn.CrmTenant), tbl[i]? = some t →
        t.crm_workspace_id ≠ some wid →
        (EdgeFn.edgeApplyEvent (.tenantEnabled wid) tbl now).1[i]? = some t) ∧
      (∀ (i : Nat) (t : EdgeFn.CrmTenant), tbl[i]? = some t →
        t.crm_workspace_id ≠ some wid →
        (EdgeFn.edgeApplyEvent (.tenantDeleted wid) tbl now).1[i]? = some t) := by
  refine ⟨rfl, ?_, ?_⟩ <;>
    · intro i t hget hne
      simp [EdgeFn.edgeApplyEvent, List.getElem?_map, hget, hne]

/-- Witness for C4 (amended): the deleted `acme` tenant of the
counterexample is untouched by an enable event. -/
theorem c4_amended_witness :
    (EdgeFn.edgeApplyEvent (.tenantEnabled "w1".data)
        [⟨"acme".data, none, .deleted, none, none, 0⟩] 100).1[0]?
      = some ⟨"acme".data, none, .deleted, none, none, 0⟩ :=
  (c4_amended [⟨"acme".data, none, .deleted, none, none, 0⟩] 100
    "w1".data).2.1 0 ⟨"acme".data, none, .deleted, none, none, 0⟩
    (by decide) (by decide)

/-- The §3 invariant on a data-plane workspace row: the disabled
fields are populated only while the tenant is disabled. -/
def CrmAdmin.wsInv (w : CrmAdmin.Workspace) : Prop :=
  w.isDisabled = false → w.disabledAt = none ∧ w.disabledReason = none

/-- The §3 invariant on a control-plane tenant row. -/
def EdgeFn.tenantInv (t : EdgeFn.CrmTenant) : Prop :=
  t.status ≠ .disabled → t.disabled_at = none ∧ t.disabled_reason = none

theorem CrmAdmin.findWorkspace_mem {tbl : List CrmAdmin.Workspace}
    {tid : Str} {w : CrmAdmin.Workspace}
    (h : CrmAdmin.findWorkspace tbl tid = some w) : w ∈ tbl :=
  List.mem_of_find?_eq_some h

theorem CrmAdmin.mem_save {tbl : List CrmAdmin.Workspace}
    {w x : CrmAdmin.Workspace} (h : x ∈ CrmAdmin.saveWorkspace tbl w) :
    x = w ∨ x ∈ tbl := by
  rw [CrmAdmin.saveWorkspace] at h
  rcases List.mem_map.mp h with ⟨y, hy, hxy⟩
  by_cases hid : y.id = w.id
  · left; rw [← hxy]; simp [hid]
  · right; rw [← hxy]; simp [hid]; exact hy

/-- C9, counterexample: the edge function's `tenant.deleted` handler
sets status `deleted` but leaves `disabled_at`/`disabled_reason`
populated, so after the operation the fields are non-null while the
status is not `disabled` (the `tenant.created` handler violates the
invariant the same way). -/
theorem c9_counterexample :
    ((EdgeFn.edgeApplyEvent (.tenantDeleted "w1".data)
        [⟨"acme".data, some "w1".data, .disabled, some 5, some "r".data, 0⟩]
        100).1.map fun t => (t.status, t.disabled_at, t.disabled_reason))
      = [(.deleted, some 5, some "r".data)] := by
  decide

/-- C9, amended: `disable` stamps `disabled_at` and stores the given
reason, `enable` clears both; the invariant "`disabled_at` and
`disabled_reason` are non-null only while the tenant is disabled" is
preserved by disable/enable/update-notes on the CRM side and by the
`tenant.enabled`/`tenant.disabled` handlers of the edge function —
but not by the edge `tenant.created`/`tenant.deleted` handlers, which
move the status while leaving the disabled fields in place (the
counterexample). -/
theorem c9_amended :
    (∀ tbl tid r now w2 tbl2,
        CrmAdmin.disableTenant tbl tid r now = .ok (w2, tbl2) →
        w2.isDisabled = true ∧ w2.disabledAt = some now ∧
          w2.disabledReason = r) ∧
    (∀ tbl tid w2 tbl2,
        CrmAdmin.enableTenant tbl tid = .ok (w2, tbl2) →
        w2.isDisabled = false ∧ w2.disabledAt = none ∧
          w2.disabledReason = none) ∧
    (∀ tbl tid r now w2 tbl2,
        CrmAdmin.disableTenant tbl tid r now = .ok (w2, tbl2) →
        (∀ x ∈ tbl, CrmAdmin.wsInv x) → ∀ x ∈ tbl2, CrmAdmin.wsInv x) ∧
    (∀ tbl tid w2 tbl2,
        CrmAdmin.enableTenant tbl tid = .ok (w2, tbl2) →
        (∀ x ∈ tbl, CrmAdmin.wsInv x) → ∀ x ∈ tbl2, CrmAdmin.wsInv x) ∧
    (∀ tbl tid notes w2 tbl2,
        CrmAdmin.updateAdminNotes tbl tid notes = .ok (w2, tbl2) →
        (∀ x ∈ tbl, CrmAdmin.wsInv x) → ∀ x ∈ tbl2, CrmAdmin.wsInv x) ∧
    (∀ tbl now wid,
        (∀ t ∈ tbl, EdgeFn.tenantInv t) →
        ∀ t ∈ (EdgeFn.edgeApplyEvent (.tenantEnabled wid) tbl now).1,
          EdgeFn.tenantInv t) ∧
    (∀ tbl now wid dat r,
        (∀ t ∈ tbl, EdgeFn.tenantInv t) →
        ∀ t ∈ (EdgeFn.edgeApplyEvent (.tenantDisabled wid dat r) tbl now).1,
          EdgeFn.tenantInv t) := by
  refine ⟨?_, ?_, ?_, ?_, ?_, ?_, ?_⟩
  · intro tbl tid r now w2 tbl2 hok
    rcases hfind : CrmAdmin.findWorkspace tbl tid with _ | w
    · simp [CrmAdmin.disableTenant, hfind] at hok
    · rw [CrmAdmin.disableTenant, hfind] at hok
      injection hok with hok
      rw [Prod.mk.injEq] at hok
      obtain ⟨hw2, -⟩ := hok
      rw [← hw2]
      exact ⟨rfl, rfl, rfl⟩
  · intro tbl tid w2 tbl2 hok
    rcases hfind : CrmAdmin.findWorkspace tbl tid with _ | w
    · simp [CrmAdmin.enableTenant, hfind] at hok
    · rw [CrmAdmin.enableTenant, hfind] at hok
      injection hok with hok
      rw [Prod.mk.injEq] at hok
      obtain ⟨hw2, -⟩ := hok
      rw [← hw2]
      exact ⟨rfl, rfl, rfl⟩
  · intro tbl tid r now w2 tbl2 hok hinv x hx
    rcases hfind : CrmAdmin.findWorkspace tbl tid with _ | w
    · simp [CrmAdmin.disableTenant, hfind] at hok
    · rw [CrmAdmin.disableTenant, hfind] at hok
      injection hok with hok
      rw [Prod.mk.injEq] at hok
      obtain ⟨hw2, htbl2⟩ := hok
      rw [← htbl2] at hx
      rcases CrmAdmin.mem_save hx with hxe | hxe
      · rw [hxe]
        intro hdis
        exact absurd hdis (by simp)
      · exact hinv x hxe
  · intro tbl tid w2 tbl2 hok hinv x hx
    rcases hfind : CrmAdmin.findWorkspace tbl tid with _ | w
    · simp [CrmAdmin.enableTenant, hfind] at hok
    · rw [CrmAdmin.enableTenant, hfind] at hok
      injection hok with hok
      rw [Prod.mk.injEq] at hok
      obtain ⟨hw2, htbl2⟩ := hok
      rw [← htbl2] at hx
      rcases CrmAdmin.mem_save hx with hxe | hxe
      · rw [hxe]
        exact fun _ => ⟨rfl, rfl⟩
      · exact hinv x hxe
  · intro tbl tid notes w2 tbl2 hok hinv x hx
    rcases hfind : CrmAdmin.findWorkspace tbl tid with _ | w
    · simp [CrmAdmin.updateAdminNotes, hfind] at hok
    · rw [CrmAdmin.updateAdminNotes, hfind] at hok
      injection hok with hok
      rw [Prod.mk.injEq] at hok
      obtain ⟨hw2, htbl2⟩ := hok
      rw [← htbl2] at hx
      rcases CrmAdmin.mem_save hx with hxe | hxe
      · rw [hxe]
        intro hdis
        exact hinv w (CrmAdmin.findWorkspace_mem hfind) hdis
      · exact hinv x hxe
  · intro tbl now wid hinv t ht
    rcases List.mem_map.mp ht with ⟨y, hy, hty⟩
    rw [← hty]
    by_cases hm : y.crm_workspace_id = some wid
    · simp only [hm, if_pos]
      exact fun _ => ⟨rfl, rfl⟩
    · simp only [hm, if_neg, if_false]
      exact hinv y hy
  · intro tbl now wid dat r hinv t ht
    rcases List.mem_map.mp ht with ⟨y, hy, hty⟩
    rw [← hty]
    by_cases hm : y.crm_workspace_id = some wid
    · simp only [hm, if_pos]
      intro hdis
      exact absurd hdis (by simp)
    · simp only [hm, if_neg, if_false]
      exact hinv y hy

/-- Witness for C9 (amended): disabling an existing tenant stamps
both fields. -/
theorem c9_amended_witness :
    (⟨"a".data, "A".data, "a".data, true, some 7, some "r".data,
        none⟩ : CrmAdmin.Workspace).isDisabled = true ∧
      (⟨"a".data, "A".data, "a".data, true, some 7, some "r".data,
        none⟩ : CrmAdmin.Workspace).disabledAt = some 7 ∧
      (⟨"a".data, "A".data, "a".data, true, some 7, some "r".data,
        none⟩ : CrmAdmin.Workspace).disabledReason = some "r".data :=
  c9_amended.1 [⟨"a".data, "A".data, "a".data, false, none, none, none⟩]
    "a".data (some "r".data) 7
    ⟨"a".data, "A".data, "a".data, true, some 7, some "r".data, none⟩
    [⟨"a".data, "A".data, "a".data, true, some 7, some "r".data, none⟩]
    (by decide)

/-- C6, counterexample: `disableTenant` stamps `disabledAt` with the
processing time, so applying the same disable event twice — at clock
1 and then clock 2 — ends with `disabledAt = some 2`, not the `some
1` that a single application produced: the end states differ in
`disabled_at`, which the claim explicitly includes. -/
theorem c6_counterexample :
    CrmAdmin.disableTenant
        [⟨"a".data, "A".data, "a".data, false, none, none, none⟩]
        "a".data (some "r".data) 1
      = .ok (⟨"a".data, "A".data, "a".data, true, some 1, some "r".data, none⟩,
          [⟨"a".data, "A".data, "a".data, true, some 1, some "r".data, none⟩]) ∧
    CrmAdmin.disableTenant
        [⟨"a".data, "A".data, "a".data, true, some 1, some "r".data, none⟩]
        "a".data (some "r".data) 2
      = .ok (⟨"a".data, "A".data, "a".data, true, some 2, some "r".data, none⟩,
          [⟨"a".data, "A".data, "a".data, true, some 2, some "r".data, none⟩]) ∧
    (some (2 : Int) ≠ some (1 : Int)) := by
  refine ⟨by decide, by decide, by decide⟩

/-- C6, amended: applying the same confirmed event twice yields the
same end state and no error provided the two applications carry the
same timestamps (same edge-function clock; same `disabled_at` payload
field; same CRM clock).  When the second application runs at a later
clock, the time-stamped fields (`updated_at`, and `disabled_at` on
the CRM disable path) are refreshed — the counterexample. -/
theorem c6_amended :
    (∀ (ev : EdgeFn.EdgeEvent) (tbl : List EdgeFn.CrmTenant) (now : Int),
        EdgeFn.edgeApplyEvent ev (EdgeFn.edgeApplyEvent ev tbl now).1 now
          = EdgeFn.edgeApplyEvent ev tbl now) ∧
    (∀ tbl tid r now w2 tbl2,
        CrmAdmin.disableTenant tbl tid r now = .ok (w2, tbl2) →
        CrmAdmin.disableTenant tbl2 tid r now = .ok (w2, tbl2)) ∧
    (∀ tbl tid w2 tbl2,
        CrmAdmin.enableTenant tbl tid = .ok (w2, tbl2) →
        CrmAdmin.enableTenant tbl2 tid = .ok (w2, tbl2)) := by
  refine ⟨?_, ?_, ?_⟩
  · intro ev tbl now
    cases ev with
    | tenantCreated sd wid =>
      simp only [EdgeFn.edgeApplyEvent, Prod.mk.injEq, List.map_map]
      refine ⟨?_, trivial⟩
      exact List.map_congr_left fun t ht => by
        by_cases hm : t.subdomain = sd <;> simp [hm]
    | tenantDisabled wid dat r =>
      simp only [EdgeFn.edgeApplyEvent, Prod.mk.injEq, List.map_map]
      refine ⟨?_, trivial⟩
      exact List.map_congr_left fun t ht => by
        by_cases hm : t.crm_workspace_id = some wid <;> simp [hm]
    | tenantEnabled wid =>
      simp only [EdgeFn.edgeApplyEvent, Prod.mk.injEq, List.map_map]
      refine ⟨?_, trivial⟩
      exact List.map_congr_left fun t ht => by
        by_cases hm : t.crm_workspace_id = some wid <;> simp [hm]
    | tenantDeleted wid =>
      simp only [EdgeFn.edgeApplyEvent, Prod.mk.injEq, List.map_map]
      refine ⟨?_, trivial⟩
      exact List.map_congr_left fun t ht => by
        by_cases hm : t.crm_workspace_id = some wid <;> simp [hm]
    | unknownEvent => rfl
  · intro tbl tid r now w2 tbl2 hok
    rcases hfind : CrmAdmin.findWorkspace tbl tid with _ | w
    · simp [CrmAdmin.disableTenant, hfind] at hok
    · rw [CrmAdmin.disableTenant, hfind] at hok
      injection hok with hok
      rw [Prod.mk.injEq] at hok
      obtain ⟨hw2, htbl2⟩ := hok
      subst hw2
      subst htbl2
      have hfind2 := @CrmAdmin.find_save _ _ _
        { w with isDisabled := true, disabledAt := some now,
                 disabledReason := r } hfind rfl
      simp [CrmAdmin.disableTenant, hfind2, CrmAdmin.save_save]
  · intro tbl tid w2 tbl2 hok
    rcases hfind : CrmAdmin.findWorkspace tbl tid with _ | w
    · simp [CrmAdmin.enableTenant, hfind] at hok
    · rw [CrmAdmin.enableTenant, hfind] at hok
      injection hok with hok
      rw [Prod.mk.injEq] at hok
      obtain ⟨hw2, htbl2⟩ := hok
      subst hw2
      subst htbl2
      have hfind2 := @CrmAdmin.find_save _ _ _
        { w with isDisabled := false, disabledAt := none,
                 disabledReason := none } hfind rfl
      simp [CrmAdmin.enableTenant, hfind2, CrmAdmin.save_save]

/-- Witness for C6 (amended): re-disabling at the same clock is a
no-op. -/
theorem c6_amended_witness :
    CrmAdmin.disableTenant
        [⟨"a".data, "A".data, "a".data, true, some 1, some "r".data, none⟩]
        "a".data (some "r".data) 1
      = .ok (⟨"a".data, "A".data, "a".data, true, some 1, some "r".data, none⟩,
          [⟨"a".data, "A".data, "a".data, true, some 1, some "r".data, none⟩]) :=
  c6_amended.2.1 [⟨"a".data, "A".data, "a".data, false, none, none, none⟩]
    "a".data (some "r".data) 1
    ⟨"a".data, "A".data, "a".data, true, some 1, some "r".data, none⟩
    [⟨"a".data, "A".data, "a".data, true, some 1, some "r".data, none⟩]
    (by decide)

/-- C8: for every existing tenant, disable succeeds and stores the
given reason even when the tenant is already disabled (idempotent
success), and the sequence `disable(t, r1); enable(t); disable(t,
r2)` succeeds end to end, leaving the tenant disabled with
`disabledReason = r2`, the latest reason. -/
theorem c8_disable_enable_disable (tbl : List CrmAdmin.Workspace)
    (tid : Str) (w : CrmAdmin.Workspace)
    (hfind : CrmAdmin.findWorkspace tbl tid = some w)
    (r1 r' r2 : Option Str) (t1 t2 t3 : Int) :
    (∃ w1 tbl1 w2 tbl2,
        CrmAdmin.disableTenant tbl tid r1 t1 = .ok (w1, tbl1) ∧
        w1.isDisabled = true ∧ w1.disabledReason = r1 ∧
        CrmAdmin.disableTenant tbl1 tid r' t2 = .ok (w2, tbl2) ∧
        w2.isDisabled = true ∧ w2.disabledReason = r') ∧
    (∃ w1 tbl1 w2 tbl2 w3 tbl3,
        CrmAdmin.disableTenant tbl tid r1 t1 = .ok (w1, tbl1) ∧
        CrmAdmin.enableTenant tbl1 tid = .ok (w2, tbl2) ∧
        CrmAdmin.disableTenant tbl2 tid r2 t3 = .ok (w3, tbl3) ∧
        w3.isDisabled = true ∧ w3.disabledReason = r2 ∧
        CrmAdmin.findWorkspace tbl3 tid = some w3) := by
  have hwid : w.id = tid := by
    have := List.find?_some hfind
    simpa using this
  have hd1 : CrmAdmin.disableTenant tbl tid r1 t1
      = .ok (⟨w.id, w.displayName, w.subdomain, true, some t1, r1,
              w.adminNotes⟩,
             CrmAdmin.saveWorkspace tbl
               ⟨w.id, w.displayName, w.subdomain, true, some t1, r1,
                w.adminNotes⟩) := by
    rw [CrmAdmin.disableTenant, hfind]
  have hfind1 := @CrmAdmin.find_save _ _ _
    ⟨w.id, w.displayName, w.subdomain, true, some t1, r1, w.adminNotes⟩
    hfind rfl
  constructor
  · refine ⟨_, _, ⟨w.id, w.displayName, w.subdomain, true, some t2, r',
      w.adminNotes⟩,
      CrmAdmin.saveWorkspace
        (CrmAdmin.saveWorkspace tbl
          ⟨w.id, w.displayName, w.subdomain, true, some t1, r1,
           w.adminNotes⟩)
        ⟨w.id, w.displayName, w.subdomain, true, some t2, r',
         w.adminNotes⟩,
      hd1, rfl, rfl, ?_, rfl, rfl⟩
    rw [CrmAdmin.disableTenant, hfind1]
  · have he : CrmAdmin.enableTenant
        (CrmAdmin.saveWorkspace tbl
          ⟨w.id, w.displayName, w.subdomain, true, some t1, r1,
           w.adminNotes⟩) tid
        = .ok (⟨w.id, w.displayName, w.subdomain, false, none, none,
                w.adminNotes⟩,
               CrmAdmin.saveWorkspace
                 (CrmAdmin.saveWorkspace tbl
                   ⟨w.id, w.displayName, w.subdomain, true, some t1, r1,
                    w.adminNotes⟩)
                 ⟨w.id, w.displayName, w.subdomain, false, none, none,
                  w.adminNotes⟩) := by
      rw [CrmAdmin.enableTenant, hfind1]
    have hfind2 := @CrmAdmin.find_save _ _ _
      ⟨w.id, w.displayName, w.subdomain, false, none, none, w.adminNotes⟩
      hfind1 rfl
    have hd3 : CrmAdmin.disableTenant
        (CrmAdmin.saveWorkspace
          (CrmAdmin.saveWorkspace tbl
            ⟨w.id, w.displayName, w.subdomain, true, some t1, r1,
             w.adminNotes⟩)
          ⟨w.id, w.displayName, w.subdomain, false, none, none,
           w.adminNotes⟩) tid r2 t3
        = .ok (⟨w.id, w.displayName, w.subdomain, true, some t3, r2,
                w.adminNotes⟩,
               CrmAdmin.saveWorkspace
                 (CrmAdmin.saveWorkspace
                   (CrmAdmin.saveWorkspace tbl
                     ⟨w.id, w.displayName, w.subdomain, true, some t1, r1,
                      w.adminNotes⟩)
                   ⟨w.id, w.displayName, w.subdomain, false, none, none,
                    w.adminNotes⟩)
                 ⟨w.id, w.displayName, w.subdomain, true, some t3, r2,
                  w.adminNotes⟩) := by
      rw [CrmAdmin.disableTenant, hfind2]
    have hfind3 := @CrmAdmin.find_save _ _ _
      ⟨w.id, w.displayName, w.subdomain, true, some t3, r2, w.adminNotes⟩
      hfind2 rfl
    exact ⟨_, _, _, _, _, _, hd1, he, hd3, rfl, rfl, hfind3⟩

/-- Witness for C8 on a one-tenant table. -/
theorem c8_disable_enable_disable_witness :
    (∃ w1 tbl1 w2 tbl2,
        CrmAdmin.disableTenant
            [⟨"a".data, "A".data, "a".data, false, none, none, none⟩]
            "a".data (some "r1".data) 1 = .ok (w1, tbl1) ∧
        w1.isDisabled = true ∧ w1.disabledReason = some "r1".data ∧
        CrmAdmin.disableTenant tbl1 "a".data (some "rx".data) 2
          = .ok (w2, tbl2) ∧
        w2.isDisabled = true ∧ w2.disabledReason = some "rx".data) ∧
    (∃ w1 tbl1 w2 tbl2 w3 tbl3,
        CrmAdmin.disableTenant
            [⟨"a".data, "A".data, "a".data, false, none, none, none⟩]
            "a".data (some "r1".data) 1 = .ok (w1, tbl1) ∧
        CrmAdmin.enableTenant tbl1 "a".data = .ok (w2, tbl2) ∧
        CrmAdmin.disableTenant tbl2 "a".data (some "r2".data) 3
          = .ok (w3, tbl3) ∧
        w3.isDisabled = true ∧ w3.disabledReason = some "r2".data ∧
        CrmAdmin.findWorkspace tbl3 "a".data = some w3) :=
  c8_disable_enable_disable
    [⟨"a".data, "A".data, "a".data, false, none, none, none⟩] "a".data
    ⟨"a".data, "A".data, "a".data, false, none, none, none⟩ (by decide)
    (some "r1".data) (some "rx".data) (some "r2".data) 1 2 3

/-- C5, counterexample: a correctly signed, well-parsed
`tenant.disabled` webhook whose `data` carries neither `tenantId` nor
`tenantEmail` makes `TenantWebhookController.handleWebhook` throw an
`AuthException` (`INVALID_INPUT`) — a non-2xx response even though
signature verification (first conjunct) and parsing both succeeded.
The same happens when the referenced tenant does not exist
(`findOneOrFail` throws). -/
theorem c5_counterexample :
    WebhookSig.verifySignature "{}".data
        "t=100,v1=64f9042d54c0b4c5d93529de132881257ed516306c6c5257a267453eef6498ed".data
        "sk".data 100 = .ok true ∧
      CrmAdmin.handleWebhook "{}".data
        "t=100,v1=64f9042d54c0b4c5d93529de132881257ed516306c6c5257a267453eef6498ed".data
        "sk".data 100 .tenantDisabledEvt ⟨none, none, none⟩ []
        = .error .invalidInput := by
  constructor <;> set_option maxRecDepth 1000000 in decide

/-- C5, amended: once signature verification succeeds, the handler
returns 200 for unknown/unprocessed event types and for every tenant
event whose referenced tenant resolves to an existing workspace; a
tenant that cannot be resolved (`AuthException INVALID_INPUT`) or
does not exist (`findOneOrFail`) yields a non-2xx error even though
signature and parsing succeeded; and signature failures are the only
source of the signature-failure error. -/
theorem c5_amended (rawBody signature secret : Str) (now : Int)
    (event : CrmAdmin.CrmWebhookEvent) (data : CrmAdmin.WebhookData)
    (tbl : List CrmAdmin.Workspace)
    (hsig : WebhookSig.verifySignature rawBody signature secret now
      = .ok true) :
    (event = .userRemovedEvt ∨ event = .otherEvt →
      CrmAdmin.handleWebhook rawBody signature secret now event data tbl
        = .ok (tbl, 200)) ∧
    (∀ tid w,
      CrmAdmin.resolveTenantId data.tenantId data.tenantEmail tbl
          = some tid →
      CrmAdmin.findWorkspace tbl tid = some w →
      ∃ tbl2,
        CrmAdmin.handleWebhook rawBody signature secret now event data tbl
          = .ok (tbl2, 200)) ∧
    (∀ e, CrmAdmin.handleWebhook rawBody signature secret now event data tbl
      ≠ .error (.sigFailure e)) := by
  refine ⟨?_, ?_, ?_⟩
  · rintro (rfl | rfl) <;> rw [CrmAdmin.handleWebhook, hsig]
  · intro tid w hres hfindw
    cases event <;> rw [CrmAdmin.handleWebhook, hsig] <;>
      simp only [hres] <;>
      first
        | exact ⟨tbl, rfl⟩
        | · rw [CrmAdmin.disableTenant, hfindw]
            exact ⟨_, rfl⟩
        | · rw [CrmAdmin.enableTenant, hfindw]
            exact ⟨_, rfl⟩
  · intro e
    cases event <;> rw [CrmAdmin.handleWebhook, hsig] <;>
      rcases hres : CrmAdmin.resolveTenantId data.tenantId data.tenantEmail
        tbl with _ | tid <;>
      simp only [hres] <;>
      try simp
    all_goals
      first
        | (rcases hfw : CrmAdmin.findWorkspace tbl tid with _ | w <;>
            simp [CrmAdmin.disableTenant, CrmAdmin.enableTenant, hfw])
        | simp

/-- Witness for C5 (amended): a signed disable webhook that resolves
an existing tenant is acknowledged with 200. -/
theorem c5_amended_witness :
    ∃ tbl2,
      CrmAdmin.handleWebhook "{}".data
          "t=100,v1=64f9042d54c0b4c5d93529de132881257ed516306c6c5257a267453eef6498ed".data
          "sk".data 100 .tenantDisabledEvt ⟨some "a".data, none, none⟩
          [⟨"a".data, "A".data, "a".data, false, none, none, none⟩]
        = .ok (tbl2, 200) :=
  (c5_amended "{}".data
    "t=100,v1=64f9042d54c0b4c5d93529de132881257ed516306c6c5257a267453eef6498ed".data
    "sk".data 100 .tenantDisabledEvt ⟨some "a".data, none, none⟩
    [⟨"a".data, "A".data, "a".data, false, none, none, none⟩]
    (by set_option maxRecDepth 1000000 in decide)).2.1 "a".data
    ⟨"a".data, "A".data, "a".data, false, none, none, none⟩
    (by decide) (by decide)

